import Mathlib

/-!
Verification of the TLDR extractive summarizer (src/tldr/tldr.py).

The Python source is shallowly embedded: strings become lists of characters,
floating point values become rationals, fallible code returns Except, and the
loops become structural recursions that mirror the source line by line.
-/

namespace TLDR

/-- A Python string is modelled as the list of its characters. -/
abbrev Sentence := List Char

/-- Python str.strip applied to a list of characters: remove leading and
trailing whitespace. -/
def pyStrip (s : List Char) : List Char :=
  ((s.dropWhile Char.isWhitespace).reverse.dropWhile Char.isWhitespace).reverse

/-- First pass of the loop in `_split_to_sentences` (tldr.py lines 105-116),
processing the fragments produced by `text.split('.')` after the first one.
State: `last` is the sentence currently under construction (Python
`sentences[-1]`), `flag` is the `ends_with_dot` variable.  Each fragment gets
the consumed period re-appended; short fragments (trimmed length at most 1)
and fragments following a pending ends-with-dot flag are merged into `last`,
otherwise `last` is emitted and a new sentence starts.  Returns the sentence
list together with the final value of `ends_with_dot`, which the source
leaks into the second pass without resetting. -/
def phase1Go : List (List Char) → List Char → Bool → List (List Char) × Bool
  | [], last, flag => ([last], flag)
  | f :: rest, last, flag =>
    if (pyStrip f).length ≤ 1 then
      phase1Go rest (last ++ f ++ ['.']) (if (pyStrip f).length = 1 then true else flag)
    else if flag then
      phase1Go rest (last ++ f ++ ['.']) false
    else
      let r := phase1Go rest (f ++ ['.']) flag
      (last :: r.1, r.2)

/-- The first pass of `_split_to_sentences` (tldr.py lines 105-116): split on
the period character and recombine fragments.  At index 0 both merge guards
are disabled (`i > 0` fails), so the first fragment always starts the first
sentence. -/
def phase1 (text : List Char) : List (List Char) × Bool :=
  match text.splitOn '.' with
  | [] => ([], false)
  | f :: rest => phase1Go rest (f ++ ['.']) false

/-- Python `s.rfind(' ')` (tldr.py line 122): index of the last space
character, or none when there is no space (Python returns -1). -/
def rfindSpace (s : List Char) : Option Nat :=
  match s.reverse.findIdx? (fun c => c == ' ') with
  | some j => some (s.length - 1 - j)
  | none => none

/-- Python `sentence[last_word_index:].strip().lower()` (tldr.py line 123).
When `rfind` returned -1 the slice `sentence[-1:]` is the final character of
the sentence alone, not the whole sentence. -/
def lastWord (s : List Char) : List Char :=
  match rfindSpace s with
  | some i => (pyStrip (s.drop i)).map Char.toLower
  | none => (pyStrip (s.drop (s.length - 1))).map Char.toLower

/-- Second pass of `_split_to_sentences` (tldr.py lines 120-131): merge a
sentence into its predecessor when its last word is in the abbreviation
table (setting `ends_with_dot`), or when `ends_with_dot` is pending
(clearing it); both merges require a predecessor (`i > 0`).  `last` is the
sentence most recently placed in `split_sentences`. -/
def phase2Go (tokens : List (List Char)) : List (List Char) → List Char → Bool → List (List Char)
  | [], last, _ => [last]
  | sen :: rest, last, flag =>
    if lastWord sen ∈ tokens then
      phase2Go tokens rest (last ++ sen) true
    else if flag then
      phase2Go tokens rest (last ++ sen) false
    else
      last :: phase2Go tokens rest sen flag

/-- `_split_to_sentences` (tldr.py lines 86-133), parameterised by the
abbreviation table `tokens` (the `words_with_dot.tokens` data asset).  The
`ends_with_dot` flag left over from the first pass is carried into the
second pass, exactly as in the source where the variable is not reset. -/
def split_to_sentences (tokens : List (List Char)) (text : List Char) : List (List Char) :=
  match (phase1 text).1 with
  | [] => []
  | s0 :: rest => phase2Go tokens rest s0 (phase1 text).2

/-- Modelled from the spec: the abbreviation lookup table of the repository
module `words_with_dot.py` is not under src/ (only its import and its use at
tldr.py lines 7 and 124 are).  The spec describes it as a fixed set of words
that legitimately end with a period without terminating a sentence, naming
"mr.", "dr.", "etc.", "u.s." and single-letter initials as examples; the
abbreviation test input additionally requires "p.m." to be present. -/
def words_with_dot_tokens : List (List Char) :=
  (["mr.", "mrs.", "ms.", "dr.", "prof.", "st.", "etc.", "e.g.", "i.e.",
    "u.s.", "a.m.", "p.m.", "a.", "b.", "j."]).map String.data

/-- Selection mode of the summarizer (the validated `mode` argument). -/
inductive Mode
  | value
  | length
  | best
  deriving DecidableEq

/-- An element of `evaluated_sentences` (tldr.py line 186): the tuple of
sentence value, sentence text and original position. -/
abbrev Entry := ℚ × Sentence × ℕ

/-- Python comparison of two numbers as an `Ordering` (sentence values are
modelled as rationals). -/
def cmpQ (a b : ℚ) : Ordering :=
  if a < b then .lt else if b < a then .gt else .eq

/-- Python comparison of two characters: by Unicode code point. -/
def cmpChar (a b : Char) : Ordering :=
  if a < b then .lt else if b < a then .gt else .eq

/-- Python lexicographic comparison of two strings. -/
def cmpStr : List Char → List Char → Ordering
  | [], [] => .eq
  | [], _ :: _ => .lt
  | _ :: _, [] => .gt
  | a :: as, b :: bs =>
    match cmpChar a b with
    | .eq => cmpStr as bs
    | o => o

/-- Python lexicographic comparison of the (value, text, index) tuples that
`sorted` uses at tldr.py line 186. -/
def cmpEntry (a b : Entry) : Ordering :=
  match cmpQ a.1 b.1 with
  | .eq =>
    match cmpStr a.2.1 b.2.1 with
    | .eq => if a.2.2 < b.2.2 then .lt else if b.2.2 < a.2.2 then .gt else .eq
    | o => o
  | o => o

/-- Comparator realising `sorted(..., reverse=True)` (tldr.py line 186):
entry `a` may precede `b` exactly when `a` is not below `b` in the tuple
order, which yields the descending stable sort. -/
def entryGe (a b : Entry) : Bool :=
  match cmpEntry a b with
  | .lt => false
  | _ => true

/-- Comparator realising `sorted(summary_sentences, key=itemgetter(2))`
(tldr.py line 221): ascending original position. -/
def idxLe (a b : Entry) : Bool :=
  decide (a.2.2 ≤ b.2.2)

/-- `zip(sentence_value, sentences, range(len(sentences)))`
(tldr.py line 186). -/
def pyZip3 (sentence_value : List ℚ) (sentences : List Sentence) : List Entry :=
  sentence_value.zip (sentences.zip (List.range sentences.length))

/-- The per-entry contribution accumulated by the selection loop: the
character length of the sentence in length mode (tldr.py lines 203, 211-212,
218), otherwise the sentence value. -/
def contribution (mode : Mode) (e : Entry) : ℚ :=
  if mode = .length then (e.2.1.length : ℚ) else e.1

/-- The Python exceptions the embedded code can raise (messages elided). -/
inductive PyError
  | typeError
  | valueError
  | zeroDivisionError
  deriving DecidableEq

/-- The while loop of `_generate_summary` (tldr.py lines 205-218) as a
recursion over the tail of `evaluated_sentences` not yet visited, carrying
the accumulated `summary_value`.  The continue condition is evaluated before
each prospective addition; in best mode the loop additionally breaks before
adding an entry whose value is below the average. -/
def selLoop (mode : Mode) (target avg : ℚ) : List Entry → ℚ → List Entry × ℚ
  | [], s => ([], s)
  | e :: rest, s =>
    if target - s ≥ (s + contribution mode e) - target then
      if mode = .best ∧ e.1 < avg then ([], s)
      else
        let r := selLoop mode target avg rest (s + contribution mode e)
        (e :: r.1, r.2)
    else ([], s)

/-- `evaluated_sentences` (tldr.py line 186): the (value, text, index)
tuples sorted descending by the Python tuple order. -/
def evaluatedSentences (sentences : List Sentence) (sentence_value : List ℚ) : List Entry :=
  (pyZip3 sentence_value sentences).mergeSort entryGe

/-- `max_value` (tldr.py lines 188-191): the length of the concatenation of
all sentences in length mode, otherwise the sum of all sentence values. -/
def maxValue (sentences : List Sentence) (sentence_value : List ℚ) (mode : Mode) : ℚ :=
  if mode = .length then (sentences.flatten.length : ℚ) else sentence_value.sum

/-- `target_value` (tldr.py lines 193-197): unreachable `max_value + 1` in
best mode, otherwise the requested fraction of `max_value`. -/
def targetValue (sentences : List Sentence) (sentence_value : List ℚ)
    (percentage : ℤ) (mode : Mode) : ℚ :=
  if mode = .best then maxValue sentences sentence_value mode + 1
  else ((percentage : ℚ) / 100) * maxValue sentences sentence_value mode

/-- `average_value` (tldr.py line 199): mean sentence value. -/
def averageValue (sentences : List Sentence) (sentence_value : List ℚ) : ℚ :=
  ((evaluatedSentences sentences sentence_value).map (fun e => e.1)).sum
    / ((evaluatedSentences sentences sentence_value).length : ℚ)

/-- `_generate_summary` (tldr.py lines 161-224).  Python raises
ZeroDivisionError at line 199 when `evaluated_sentences` is empty (division
by its length, before the loop touches element 0 at line 203) and at line
222 when `max_value` is zero; both faults are modelled as
`.error .zeroDivisionError`.  On success the selected entries are re-sorted
by original position (line 221) and paired with the coverage percentage
(line 222). -/
def generate_summary (sentences : List Sentence) (sentence_value : List ℚ)
    (percentage : ℤ) (mode : Mode) : Except PyError (List Entry × ℚ) :=
  if evaluatedSentences sentences sentence_value = [] then .error .zeroDivisionError
  else if maxValue sentences sentence_value mode = 0 then .error .zeroDivisionError
  else
    .ok (((selLoop mode (targetValue sentences sentence_value percentage mode)
            (averageValue sentences sentence_value)
            (evaluatedSentences sentences sentence_value) 0).1).mergeSort idxLe,
         (selLoop mode (targetValue sentences sentence_value percentage mode)
            (averageValue sentences sentence_value)
            (evaluatedSentences sentences sentence_value) 0).2
           * 100 / maxValue sentences sentence_value mode)

/-- `_evaluate_sentences` (tldr.py lines 136-158): the value of a sentence is
the sum of the dictionary values of its space-separated words; words absent
from the dictionary contribute nothing. -/
def evaluate_sentences (sentences : List Sentence)
    (sparse_dict : List (Sentence × ℚ)) : List ℚ :=
  sentences.map (fun sen =>
    ((sen.splitOn ' ').filterMap (fun w => sparse_dict.lookup w)).sum)

/-- A dynamically typed Python value, as seen by the validation layer. -/
inductive PyVal
  | int (n : ℤ)
  | float (q : ℚ)
  | str (s : List Char)
  | bool (b : Bool)
  | none
  deriving DecidableEq

/-- `_validate_arguments` (tldr.py lines 10-33): the percentage must be an
int in [0, 100] and the mode one of the three literal strings; type checks
raise TypeError and range checks ValueError, percentage first. -/
def validate_arguments (percentage mode : PyVal) : Except PyError Unit :=
  match percentage with
  | .int n =>
    if n < 0 ∨ 100 < n then .error .valueError
    else
      match mode with
      | .str s =>
        if s ≠ ("value").data ∧ s ≠ ("length").data ∧ s ≠ ("best").data then
          .error .valueError
        else .ok ()
      | _ => .error .typeError
  | _ => .error .typeError

/-- Conversion of a validated mode string to its tag. -/
def strToMode (s : List Char) : Mode :=
  if s = ("value").data then .value
  else if s = ("length").data then .length
  else .best

/-- `tldr` (tldr.py lines 227-268), with the out-of-scope collaborators
passed in as parameters: `load_file` is the outcome of `_load_file`
(tldr.py line 256) and `tfidf` is `_tfidf_vectorizer` (line 258), producing
the sparse word-value dictionary.  Validation runs first (line 254); the
rest mirrors lines 256-268, ending with the join-and-strip of the selected
sentence texts. -/
def tldr_model (load_file : Except PyError (List Char))
    (tfidf : List Char → Except PyError (List (Sentence × ℚ)))
    (tokens : List (List Char)) (percentage mode : PyVal) :
    Except PyError (List Char × ℚ) :=
  match validate_arguments percentage mode with
  | .error e => .error e
  | .ok _ =>
    match percentage, mode with
    | .int n, .str m =>
      match load_file with
      | .error e => .error e
      | .ok text =>
        match tfidf text with
        | .error e => .error e
        | .ok sparse_dict =>
          let sentences := split_to_sentences tokens text
          let sentence_value := evaluate_sentences sentences sparse_dict
          match generate_summary sentences sentence_value n (strToMode m) with
          | .error e => .error e
          | .ok r => .ok (pyStrip (r.1.map (fun e => e.2.1)).flatten, r.2)
    | _, _ => .error .typeError

/-! ### Round-trip lemmas for the segmenter -/

theorem phase1Go_flatten (frags : List (List Char)) :
    ∀ (last : List Char) (flag : Bool),
      (phase1Go frags last flag).1.flatten
        = last ++ (frags.map (fun f => f ++ ['.'])).flatten := by
  induction frags with
  | nil => intro last flag; simp [phase1Go]
  | cons f rest ih =>
    intro last flag
    simp only [phase1Go]
    by_cases h1 : (pyStrip f).length ≤ 1
    · rw [if_pos h1, ih]
      simp [List.append_assoc]
    · rw [if_neg h1]
      by_cases h2 : flag
      · rw [if_pos h2, ih]
        simp [List.append_assoc]
      · rw [if_neg h2]
        simp only [List.flatten_cons, ih]
        simp [List.append_assoc]

theorem phase1Go_ne_nil (frags : List (List Char)) :
    ∀ (last : List Char) (flag : Bool), (phase1Go frags last flag).1 ≠ [] := by
  induction frags with
  | nil => intro last flag; simp [phase1Go]
  | cons f rest ih =>
    intro last flag
    simp only [phase1Go]
    by_cases h1 : (pyStrip f).length ≤ 1
    · rw [if_pos h1]; exact ih _ _
    · rw [if_neg h1]
      by_cases h2 : flag
      · rw [if_pos h2]; exact ih _ _
      · rw [if_neg h2]; simp

theorem splitOn_map_dot_flatten (l : List Char) :
    ((l.splitOn '.').map (fun f => f ++ ['.'])).flatten = l ++ ['.'] := by
  induction l with
  | nil => rfl
  | cons c t ih =>
    simp only [List.splitOn] at ih ⊢
    rw [List.splitOnP_cons]
    by_cases hc : c = '.'
    · subst hc
      simp only [beq_self_eq_true, if_pos]
      simpa using ih
    · have hb : (c == '.') = false := by simpa using hc
      rw [hb]
      simp only [if_neg Bool.false_ne_true]
      rcases hs : t.splitOnP (fun a => a == '.') with _ | ⟨h, tl⟩
      · exact absurd hs (List.splitOnP_ne_nil _ t)
      · rw [hs] at ih
        simpa [List.append_assoc] using congrArg (List.cons c) ih

theorem phase1_flatten (text : List Char) :
    (phase1 text).1.flatten = text ++ ['.'] := by
  unfold phase1
  rcases hs : text.splitOn '.' with _ | ⟨f, rest⟩
  · exact absurd hs (by simpa [List.splitOn] using List.splitOnP_ne_nil (fun a => a == '.') text)
  · have := splitOn_map_dot_flatten text
    rw [hs] at this
    simp only [List.map_cons, List.flatten_cons] at this
    rw [phase1Go_flatten]
    simpa using this

theorem phase2Go_flatten (tokens : List (List Char)) (l : List (List Char)) :
    ∀ (last : List Char) (flag : Bool),
      (phase2Go tokens l last flag).flatten = last ++ l.flatten := by
  induction l with
  | nil => intro last flag; simp [phase2Go]
  | cons sen rest ih =>
    intro last flag
    simp only [phase2Go]
    by_cases h1 : lastWord sen ∈ tokens
    · rw [if_pos h1, ih]; simp [List.append_assoc]
    · rw [if_neg h1]
      by_cases h2 : flag
      · rw [if_pos h2, ih]; simp [List.append_assoc]
      · rw [if_neg h2]; simp [ih]

/-- C3: concatenating the sentences produced by `_split_to_sentences`
reconstructs the input text exactly, followed by the single period the
splitter appends for the final fragment; ignoring that one inserted
delimiter, no character is dropped or duplicated, for every abbreviation
table and every input text. -/
theorem c3_segmentation_round_trip (tokens : List (List Char)) (text : List Char) :
    (split_to_sentences tokens text).flatten = text ++ ['.'] := by
  unfold split_to_sentences
  rcases hp : (phase1 text).1 with _ | ⟨s0, rest⟩
  · rcases hq : text.splitOn '.' with _ | ⟨f, r⟩
    · exact absurd hq (by simpa [List.splitOn] using List.splitOnP_ne_nil (fun a => a == '.') text)
    · exact absurd hp (by simpa [phase1, hq] using phase1Go_ne_nil r (f ++ ['.']) false)
  · simp only [hp]
    rw [phase2Go_flatten]
    have := phase1_flatten text
    rw [hp] at this
    simpa using this

/-! ### Structural lemmas for the selection loop -/

theorem selLoop_fst_front (mode : Mode) (target avg : ℚ) :
    ∀ (l : List Entry) (s : ℚ), ∃ rest, l = (selLoop mode target avg l s).1 ++ rest := by
  intro l
  induction l with
  | nil => intro s; exact ⟨[], rfl⟩
  | cons e tl ih =>
    intro s
    simp only [selLoop]
    by_cases h1 : target - s ≥ s + contribution mode e - target
    · rw [if_pos h1]
      by_cases h2 : mode = .best ∧ e.1 < avg
      · rw [if_pos h2]; exact ⟨e :: tl, rfl⟩
      · rw [if_neg h2]
        obtain ⟨rest, hr⟩ := ih (s + contribution mode e)
        exact ⟨rest, by simpa using hr⟩
    · rw [if_neg h1]; exact ⟨e :: tl, rfl⟩

theorem selLoop_snd_eq (mode : Mode) (target avg : ℚ) :
    ∀ (l : List Entry) (s : ℚ),
      (selLoop mode target avg l s).2
        = s + ((selLoop mode target avg l s).1.map (contribution mode)).sum := by
  intro l
  induction l with
  | nil => intro s; simp [selLoop]
  | cons e tl ih =>
    intro s
    simp only [selLoop]
    by_cases h1 : target - s ≥ s + contribution mode e - target
    · rw [if_pos h1]
      by_cases h2 : mode = .best ∧ e.1 < avg
      · rw [if_pos h2]; simp
      · rw [if_neg h2]
        simp only [List.map_cons, List.sum_cons]
        rw [ih (s + contribution mode e)]
        ring
    · rw [if_neg h1]; simp

theorem selLoop_value_mono {t1 t2 : ℚ} (avg : ℚ) (h : t1 ≤ t2) :
    ∀ (l : List Entry) (s : ℚ),
      ∃ ext, (selLoop .value t2 avg l s).1 = (selLoop .value t1 avg l s).1 ++ ext := by
  intro l
  induction l with
  | nil => intro s; exact ⟨[], rfl⟩
  | cons e tl ih =>
    intro s
    simp only [selLoop]
    by_cases h1 : t1 - s ≥ s + contribution .value e - t1
    · have h2 : t2 - s ≥ s + contribution .value e - t2 := by linarith
      rw [if_pos h1, if_pos h2]
      have hb : ¬(Mode.value = Mode.best ∧ e.1 < avg) := by
        rintro ⟨hm, -⟩; exact absurd hm (by decide)
      rw [if_neg hb, if_neg hb]
      obtain ⟨ext, hx⟩ := ih (s + contribution .value e)
      exact ⟨ext, by simpa using hx⟩
    · rw [if_neg h1]
      exact ⟨(selLoop .value t2 avg (e :: tl) s).1, by simp [selLoop]⟩

/-! ### Facts about the zipped and sorted sentence list -/

theorem mem_pyZip3 {e : Entry} {v : List ℚ} {sentences : List Sentence}
    (h : e ∈ pyZip3 v sentences) : e.1 ∈ v ∧ e.2.1 ∈ sentences := by
  have h1 : (e.1, e.2) ∈ v.zip (sentences.zip (List.range sentences.length)) := h
  obtain ⟨hv, hw⟩ := List.of_mem_zip h1
  have h2 : (e.2.1, e.2.2) ∈ sentences.zip (List.range sentences.length) := hw
  exact ⟨hv, (List.of_mem_zip h2).1⟩

theorem mem_evaluated {e : Entry} {v : List ℚ} {sentences : List Sentence}
    (h : e ∈ evaluatedSentences sentences v) : e ∈ pyZip3 v sentences := by
  unfold evaluatedSentences at h
  exact List.mem_mergeSort.mp h

theorem contribution_nonneg {mode : Mode} {v : List ℚ} {sentences : List Sentence}
    (hnn : ∀ x ∈ v, 0 ≤ x) {e : Entry}
    (he : e ∈ evaluatedSentences sentences v) : 0 ≤ contribution mode e := by
  unfold contribution
  by_cases hm : mode = .length
  · rw [if_pos hm]; positivity
  · rw [if_neg hm]
    exact hnn e.1 (mem_pyZip3 (mem_evaluated he)).1

theorem pyZip3_map_fst {v : List ℚ} {sentences : List Sentence}
    (hlen : v.length = sentences.length) :
    (pyZip3 v sentences).map Prod.fst = v := by
  unfold pyZip3
  exact List.map_fst_zip _ _ (by simp [hlen])

theorem pyZip3_map_text {v : List ℚ} {sentences : List Sentence}
    (hlen : v.length = sentences.length) :
    (pyZip3 v sentences).map (fun e => e.2.1) = sentences := by
  unfold pyZip3
  have h1 : (v.zip (sentences.zip (List.range sentences.length))).map Prod.snd
      = sentences.zip (List.range sentences.length) :=
    List.map_snd_zip _ _ (by simp [hlen])
  have h2 : (sentences.zip (List.range sentences.length)).map Prod.fst = sentences :=
    List.map_fst_zip _ _ (by simp)
  calc (v.zip (sentences.zip (List.range sentences.length))).map (fun e => e.2.1)
      = ((v.zip (sentences.zip (List.range sentences.length))).map Prod.snd).map Prod.fst := by
        rw [List.map_map]; rfl
    _ = sentences := by rw [h1, h2]

theorem pyZip3_map_idx {v : List ℚ} {sentences : List Sentence}
    (hlen : v.length = sentences.length) :
    (pyZip3 v sentences).map (fun e => e.2.2) = List.range sentences.length := by
  unfold pyZip3
  have h1 : (v.zip (sentences.zip (List.range sentences.length))).map Prod.snd
      = sentences.zip (List.range sentences.length) :=
    List.map_snd_zip _ _ (by simp [hlen])
  have h2 : (sentences.zip (List.range sentences.length)).map Prod.snd
      = List.range sentences.length :=
    List.map_snd_zip _ _ (by simp)
  calc (v.zip (sentences.zip (List.range sentences.length))).map (fun e => e.2.2)
      = ((v.zip (sentences.zip (List.range sentences.length))).map Prod.snd).map Prod.snd := by
        rw [List.map_map]; rfl
    _ = List.range sentences.length := by rw [h1, h2]

/-- The contributions of all evaluated entries sum to `max_value`, for every
mode, when the value list and the sentence list have equal lengths. -/
theorem evaluated_contribution_sum {v : List ℚ} {sentences : List Sentence}
    (hlen : v.length = sentences.length) (mode : Mode) :
    ((evaluatedSentences sentences v).map (contribution mode)).sum
      = maxValue sentences v mode := by
  have hperm : List.Perm ((evaluatedSentences sentences v).map (contribution mode))
      ((pyZip3 v sentences).map (contribution mode)) :=
    (List.mergeSort_perm (pyZip3 v sentences) entryGe).map (contribution mode)
  rw [hperm.sum_eq]
  unfold maxValue
  by_cases hm : mode = .length
  · rw [if_pos hm, hm]
    have : (pyZip3 v sentences).map (contribution .length)
        = ((pyZip3 v sentences).map (fun e => e.2.1)).map (fun t => (t.length : ℚ)) := by
      rw [List.map_map]; rfl
    rw [this, pyZip3_map_text hlen, List.length_flatten]
    rw [Nat.cast_list_sum, List.map_map]
    rfl
  · rw [if_neg hm]
    have : (pyZip3 v sentences).map (contribution mode)
        = (pyZip3 v sentences).map Prod.fst := by
      apply List.map_congr_left
      intro e _
      unfold contribution
      rw [if_neg hm]
    rw [this, pyZip3_map_fst hlen]

/-- Inversion of a successful run of `_generate_summary`: the inputs were
nonempty with nonzero total, and the output is the re-sorted loop selection
with its coverage percentage. -/
theorem generate_summary_ok_elim {sentences : List Sentence} {v : List ℚ}
    {p : ℤ} {mode : Mode} {sel : List Entry} {c : ℚ}
    (h : generate_summary sentences v p mode = .ok (sel, c)) :
    evaluatedSentences sentences v ≠ [] ∧ maxValue sentences v mode ≠ 0 ∧
    sel = ((selLoop mode (targetValue sentences v p mode) (averageValue sentences v)
            (evaluatedSentences sentences v) 0).1).mergeSort idxLe ∧
    c = (selLoop mode (targetValue sentences v p mode) (averageValue sentences v)
            (evaluatedSentences sentences v) 0).2 * 100 / maxValue sentences v mode := by
  unfold generate_summary at h
  by_cases h1 : evaluatedSentences sentences v = []
  · rw [if_pos h1] at h; exact absurd h (by simp)
  · rw [if_neg h1] at h
    by_cases h2 : maxValue sentences v mode = 0
    · rw [if_pos h2] at h; exact absurd h (by simp)
    · rw [if_neg h2] at h
      simp only [Except.ok.injEq, Prod.mk.injEq] at h
      exact ⟨h1, h2, h.1.symm, h.2.symm⟩

/-! ### Step lemmas for the loop and evaluation on a single sentence -/

theorem selLoop_nil (mode : Mode) (target avg s0 : ℚ) :
    selLoop mode target avg [] s0 = ([], s0) := rfl

theorem selLoop_cons_select (mode : Mode) (target avg s0 : ℚ) (e : Entry) (tl : List Entry)
    (hcond : target - s0 ≥ s0 + contribution mode e - target)
    (hbreak : ¬(mode = .best ∧ e.1 < avg)) :
    selLoop mode target avg (e :: tl) s0
      = (e :: (selLoop mode target avg tl (s0 + contribution mode e)).1,
         (selLoop mode target avg tl (s0 + contribution mode e)).2) := by
  simp only [selLoop]
  rw [if_pos hcond, if_neg hbreak]

theorem selLoop_cons_stop (mode : Mode) (target avg s0 : ℚ) (e : Entry) (tl : List Entry)
    (hcond : ¬(target - s0 ≥ s0 + contribution mode e - target)) :
    selLoop mode target avg (e :: tl) s0 = ([], s0) := by
  simp only [selLoop]
  rw [if_neg hcond]

theorem evaluated_singleton (s : Sentence) (v : ℚ) :
    evaluatedSentences [s] [v] = [(v, s, 0)] := by
  have hz : pyZip3 [v] [s] = [(v, s, 0)] := rfl
  rw [evaluatedSentences, hz, List.mergeSort_singleton]

theorem generate_summary_single_best (s : Sentence) (v : ℚ) (p : ℤ) (hv : 0 < v) :
    generate_summary [s] [v] p .best = .ok ([(v, s, 0)], 100) := by
  have hev := evaluated_singleton s v
  have hmx : maxValue [s] [v] .best = v := by simp [maxValue]
  have havg : averageValue [s] [v] = v := by
    rw [averageValue, hev]; simp
  have htar : targetValue [s] [v] p .best = v + 1 := by
    rw [targetValue, if_pos rfl, hmx]
  have hco : contribution .best (v, s, 0) = v := rfl
  have hcond : targetValue [s] [v] p .best - 0
      ≥ 0 + contribution .best (v, s, 0) - targetValue [s] [v] p .best := by
    rw [htar, hco]; linarith
  have hbreak : ¬(Mode.best = Mode.best ∧ ((v, s, 0) : Entry).1 < averageValue [s] [v]) := by
    rintro ⟨-, hlt⟩
    rw [havg] at hlt
    exact lt_irrefl v hlt
  have hloop : selLoop .best (targetValue [s] [v] p .best) (averageValue [s] [v])
      [(v, s, 0)] 0 = ([(v, s, 0)], 0 + contribution .best (v, s, 0)) := by
    rw [selLoop_cons_select _ _ _ _ _ _ hcond hbreak]
    rfl
  unfold generate_summary
  rw [hev, if_neg (by simp), hmx, if_neg hv.ne', hloop, hco]
  rw [List.mergeSort_singleton, zero_add, mul_comm, mul_div_assoc, div_self hv.ne', mul_one]

theorem generate_summary_single_select (s : Sentence) (v : ℚ) (p : ℤ) (mode : Mode)
    (hm : mode ≠ .best) (hc : 0 < contribution mode (v, s, 0))
    (hmx : maxValue [s] [v] mode = contribution mode (v, s, 0)) (hp : 50 ≤ p) :
    generate_summary [s] [v] p mode = .ok ([(v, s, 0)], 100) := by
  have hev := evaluated_singleton s v
  have htar : targetValue [s] [v] p mode = (p : ℚ) / 100 * contribution mode (v, s, 0) := by
    rw [targetValue, if_neg hm, hmx]
  have hp50 : (50 : ℚ) ≤ (p : ℚ) := by exact_mod_cast hp
  have hcond : targetValue [s] [v] p mode - 0
      ≥ 0 + contribution mode (v, s, 0) - targetValue [s] [v] p mode := by
    rw [htar]
    nlinarith [mul_nonneg (by linarith : (0 : ℚ) ≤ (p : ℚ) - 50) hc.le]
  have hbreak : ¬(mode = Mode.best ∧ ((v, s, 0) : Entry).1 < averageValue [s] [v]) := by
    rintro ⟨h, -⟩; exact hm h
  have hloop : selLoop mode (targetValue [s] [v] p mode) (averageValue [s] [v])
      [(v, s, 0)] 0 = ([(v, s, 0)], 0 + contribution mode (v, s, 0)) := by
    rw [selLoop_cons_select _ _ _ _ _ _ hcond hbreak]
    rfl
  unfold generate_summary
  rw [hev, if_neg (by simp), hmx, if_neg hc.ne', hloop]
  rw [List.mergeSort_singleton, zero_add, mul_comm, mul_div_assoc, div_self hc.ne', mul_one]

theorem generate_summary_single_skip (s : Sentence) (v : ℚ) (p : ℤ) (mode : Mode)
    (hm : mode ≠ .best) (hc : 0 < contribution mode (v, s, 0))
    (hmx : maxValue [s] [v] mode = contribution mode (v, s, 0)) (hp : p < 50) :
    generate_summary [s] [v] p mode = .ok ([], 0) := by
  have hev := evaluated_singleton s v
  have htar : targetValue [s] [v] p mode = (p : ℚ) / 100 * contribution mode (v, s, 0) := by
    rw [targetValue, if_neg hm, hmx]
  have hp50 : (p : ℚ) < (50 : ℚ) := by exact_mod_cast hp
  have hcond : ¬(targetValue [s] [v] p mode - 0
      ≥ 0 + contribution mode (v, s, 0) - targetValue [s] [v] p mode) := by
    rw [htar]
    push_neg
    nlinarith [mul_pos (by linarith : (0 : ℚ) < 50 - (p : ℚ)) hc]
  have hloop : selLoop mode (targetValue [s] [v] p mode) (averageValue [s] [v])
      [(v, s, 0)] 0 = ([], 0) :=
    selLoop_cons_stop _ _ _ _ _ _ hcond
  unfold generate_summary
  rw [hev, if_neg (by simp), hmx, if_neg hc.ne', hloop]
  rw [List.mergeSort_nil, zero_mul, zero_div]

theorem idxLe_trans : ∀ (a b c : Entry), idxLe a b → idxLe b c → idxLe a c := by
  intro a b c h1 h2
  simp only [idxLe, decide_eq_true_eq] at h1 h2 ⊢
  omega

theorem idxLe_total : ∀ (a b : Entry), idxLe a b || idxLe b a := by
  intro a b
  simp only [idxLe, Bool.or_eq_true, decide_eq_true_eq]
  omega

/-! ### The claims -/

/-- C7: in best mode the percentage argument has no influence on the
output of `_generate_summary` at all: for every sentence list, value list
and pair of percentages the results coincide. -/
theorem c7_best_mode_ignores_percentage (sentences : List Sentence) (v : List ℚ)
    (p1 p2 : ℤ) :
    generate_summary sentences v p1 .best = generate_summary sentences v p2 .best := rfl

/-- C8: whenever `_generate_summary` returns successfully, the returned
sentence sequence is sorted ascending by original document position,
for every input and mode. -/
theorem c8_selector_order_invariant (sentences : List Sentence) (v : List ℚ)
    (p : ℤ) (mode : Mode) (sel : List Entry) (c : ℚ)
    (h : generate_summary sentences v p mode = .ok (sel, c)) :
    sel.Pairwise (fun a b => a.2.2 ≤ b.2.2) := by
  obtain ⟨-, -, hsel, -⟩ := generate_summary_ok_elim h
  subst hsel
  have hs := List.sorted_mergeSort idxLe_trans idxLe_total
      ((selLoop mode (targetValue sentences v p mode) (averageValue sentences v)
        (evaluatedSentences sentences v) 0).1)
  exact hs.imp (fun hab => by simpa [idxLe] using hab)

/-- Witness for C8 at a concrete successful run of the selector. -/
theorem c8_selector_order_invariant_witness :
    ([((1 : ℚ), ("ab.").data, 0)] : List Entry).Pairwise (fun a b => a.2.2 ≤ b.2.2) :=
  c8_selector_order_invariant [("ab.").data] [1] 100 .best _ 100
    (generate_summary_single_best ("ab.").data 1 100 (by norm_num))

/-- C9: argument validation raises a type-mismatch error for a non-int
percentage or non-string mode, a value error for an out-of-range int
percentage or an unknown mode string, and any validation error is the
result of the whole `tldr` pipeline regardless of the file loader and the
vectorizer, so it surfaces before any loading, segmentation or scoring. -/
theorem c9_argument_validation :
    (∀ (p m : PyVal), (∀ n : ℤ, p ≠ .int n) →
        validate_arguments p m = .error .typeError)
    ∧ (∀ (n : ℤ) (m : PyVal), n < 0 ∨ 100 < n →
        validate_arguments (.int n) m = .error .valueError)
    ∧ (∀ (n : ℤ) (m : PyVal), 0 ≤ n → n ≤ 100 → (∀ s : List Char, m ≠ .str s) →
        validate_arguments (.int n) m = .error .typeError)
    ∧ (∀ (n : ℤ) (s : List Char), 0 ≤ n → n ≤ 100 →
        s ≠ ("value").data → s ≠ ("length").data → s ≠ ("best").data →
        validate_arguments (.int n) (.str s) = .error .valueError)
    ∧ (∀ (e : PyError) (p m : PyVal) (load : Except PyError (List Char))
        (tfidf : List Char → Except PyError (List (Sentence × ℚ)))
        (tokens : List (List Char)),
        validate_arguments p m = .error e →
        tldr_model load tfidf tokens p m = .error e) := by
  refine ⟨?_, ?_, ?_, ?_, ?_⟩
  · intro p m hp
    cases p with
    | int n => exact absurd rfl (hp n)
    | float q => rfl
    | str s => rfl
    | bool b => rfl
    | none => rfl
  · intro n m h
    simp only [validate_arguments]
    rw [if_pos h]
  · intro n m hn0 hn1 hm
    simp only [validate_arguments]
    rw [if_neg (by omega)]
  · intro n s hn0 hn1 h1 h2 h3
    simp only [validate_arguments]
    rw [if_neg (by omega), if_pos ⟨h1, h2, h3⟩]
  · intro e p m load tfidf tokens hv
    simp only [tldr_model, hv]

/-- Witness for C9: each validation failure demonstrated at a concrete
input, and an out-of-range percentage short-circuiting the pipeline. -/
theorem c9_argument_validation_witness :
    validate_arguments (.float (1 / 2)) (.str ("best").data) = .error .typeError
    ∧ validate_arguments (.int 101) (.str ("best").data) = .error .valueError
    ∧ validate_arguments (.int 30) (.bool true) = .error .typeError
    ∧ validate_arguments (.int 30) (.str ("speed").data) = .error .valueError
    ∧ tldr_model (.ok []) (fun _ => .ok []) words_with_dot_tokens
        (.int 101) (.str ("best").data) = .error .valueError :=
  ⟨c9_argument_validation.1 (.float (1 / 2)) (.str ("best").data)
      (fun n h => by exact absurd h (by simp)),
   c9_argument_validation.2.1 101 (.str ("best").data) (by omega),
   c9_argument_validation.2.2.1 30 (.bool true) (by omega) (by omega)
      (fun s h => by exact absurd h (by simp)),
   c9_argument_validation.2.2.2.1 30 ("speed").data (by omega) (by omega)
      (by decide) (by decide) (by decide),
   c9_argument_validation.2.2.2.2 .valueError (.int 101) (.str ("best").data)
      (.ok []) (fun _ => .ok []) words_with_dot_tokens
      (c9_argument_validation.2.1 101 (.str ("best").data) (by omega))⟩

/-- C1 counterexample: for the empty document the pipeline reaches the
coverage division with a zero denominator and fails with the division
fault, instead of detecting the condition and reporting it or returning a
0% result.  The segmenter turns the empty text into the single sentence
".", which scores 0, so the total value is zero. -/
theorem c1_counterexample :
    tldr_model (.ok []) (fun _ => .ok []) words_with_dot_tokens
      (.int 30) (.str ("value").data) = .error .zeroDivisionError := by
  have hgen : generate_summary [['.']] [(0 : ℚ)] 30 .value = .error .zeroDivisionError := by
    unfold generate_summary
    rw [if_neg (show ¬(evaluatedSentences [['.']] [(0 : ℚ)] = []) from by
      rw [evaluated_singleton ['.'] 0]
      simp)]
    rw [if_pos (show maxValue [['.']] [(0 : ℚ)] .value = 0 from by simp [maxValue])]
  have hstep : tldr_model (.ok []) (fun _ => .ok []) words_with_dot_tokens
      (.int 30) (.str ("value").data)
      = match generate_summary [['.']] [(0 : ℚ)] 30 .value with
        | .error e => (.error e : Except PyError (List Char × ℚ))
        | .ok r => .ok (pyStrip (r.1.map (fun e => e.2.1)).flatten, r.2) := rfl
  rw [hstep, hgen]

/-- C1 amended: a zero total contribution is not detected; the division at
tldr.py line 222 (or the average at line 199 for an empty sentence list) is
evaluated with a zero denominator, and `_generate_summary` fails with an
unhandled ZeroDivisionError for every percentage and mode. -/
theorem c1_zero_total_division_fault (sentences : List Sentence) (v : List ℚ)
    (p : ℤ) (mode : Mode) (h : maxValue sentences v mode = 0) :
    generate_summary sentences v p mode = .error .zeroDivisionError := by
  unfold generate_summary
  by_cases h1 : evaluatedSentences sentences v = []
  · rw [if_pos h1]
  · rw [if_neg h1, if_pos h]

/-- Witness for C1 at a concrete input with zero total value. -/
theorem c1_zero_total_division_fault_witness :
    generate_summary [("ab.").data] [0] 5 .value = .error .zeroDivisionError :=
  c1_zero_total_division_fault [("ab.").data] [0] 5 .value (by simp [maxValue])

/-- C2 counterexample: a single-sentence document with positive value and
the in-range percentage 30 (the default) in value mode yields the empty
summary with coverage 0, not the sentence with coverage 100. -/
theorem c2_counterexample :
    generate_summary [("ab.").data] [1] 30 .value = .ok ([], 0) :=
  generate_summary_single_skip ("ab.").data 1 30 .value (by decide)
    (by simp [contribution]) (by simp [maxValue, contribution]) (by decide)

/-- C2 amended: a single-sentence document with positive contribution is
returned with coverage 100 in best mode always, and in value or length mode
exactly when the percentage is at least 50; below 50 the stopping rule
rejects the only sentence and the summary is empty with coverage 0. -/
theorem c2_single_sentence_amended (s : Sentence) (v : ℚ) (p : ℤ)
    (hp0 : 0 ≤ p) (hp1 : p ≤ 100) :
    (0 < v → generate_summary [s] [v] p .best = .ok ([(v, s, 0)], 100))
    ∧ (0 < v → 50 ≤ p → generate_summary [s] [v] p .value = .ok ([(v, s, 0)], 100))
    ∧ (0 < v → p < 50 → generate_summary [s] [v] p .value = .ok ([], 0))
    ∧ (s ≠ [] → 50 ≤ p → generate_summary [s] [v] p .length = .ok ([(v, s, 0)], 100))
    ∧ (s ≠ [] → p < 50 → generate_summary [s] [v] p .length = .ok ([], 0)) := by
  have hcv : contribution .value ((v, s, 0) : Entry) = v := rfl
  have hcl : contribution .length ((v, s, 0) : Entry) = (s.length : ℚ) := rfl
  refine ⟨fun hv => generate_summary_single_best s v p hv,
    fun hv hp => generate_summary_single_select s v p .value (by decide)
      (by rw [hcv]; exact hv) (by simp [maxValue, hcv]) hp,
    fun hv hp => generate_summary_single_skip s v p .value (by decide)
      (by rw [hcv]; exact hv) (by simp [maxValue, hcv]) hp,
    fun hs hp => generate_summary_single_select s v p .length (by decide)
      (by rw [hcl]; exact_mod_cast List.length_pos.mpr hs) (by simp [maxValue, hcl]) hp,
    fun hs hp => generate_summary_single_skip s v p .length (by decide)
      (by rw [hcl]; exact_mod_cast List.length_pos.mpr hs) (by simp [maxValue, hcl]) hp⟩

/-- Witness for C2 amended at a concrete single-sentence input with
percentage 50 in value mode. -/
theorem c2_single_sentence_amended_witness :
    generate_summary [("ab.").data] [1] 50 .value = .ok ([(1, ("ab.").data, 0)], 100) :=
  (c2_single_sentence_amended ("ab.").data 1 50 (by decide) (by decide)).2.1
    (by norm_num) (by decide)

/-- C5 counterexample: with percentage 0 in value mode and a positive-valued
single sentence, the loop condition fails before the first addition and the
selector returns no sentence at all. -/
theorem c5_counterexample :
    generate_summary [("ab.").data] [1] 0 .value = .ok ([], 0) :=
  generate_summary_single_skip ("ab.").data 1 0 .value (by decide)
    (by simp [contribution]) (by simp [maxValue, contribution]) (by decide)

/-- C5 amended: the while condition is evaluated before the loop body ever
runs, so with percentage 0 (target 0) the selector returns the empty
selection with coverage 0 whenever every contribution is strictly positive
(all values positive in value mode, all sentences nonempty in length
mode). -/
theorem c5_percentage_zero_empty (sentences : List Sentence) (v : List ℚ) (mode : Mode)
    (hne : pyZip3 v sentences ≠ [])
    (hmode : (mode = .value ∧ ∀ x ∈ v, 0 < x) ∨ (mode = .length ∧ ∀ t ∈ sentences, t ≠ [])) :
    generate_summary sentences v 0 mode = .ok ([], 0) := by
  have hev_ne : evaluatedSentences sentences v ≠ [] := by
    intro hcontra
    apply hne
    have hlen0 := congrArg List.length hcontra
    rw [evaluatedSentences, List.length_mergeSort] at hlen0
    exact List.length_eq_zero.mp (by simpa using hlen0)
  obtain ⟨e, tl, hev⟩ : ∃ e tl, evaluatedSentences sentences v = e :: tl := by
    rcases h : evaluatedSentences sentences v with _ | ⟨e, tl⟩
    · exact absurd h hev_ne
    · exact ⟨e, tl, rfl⟩
  have hmem : e ∈ pyZip3 v sentences := mem_evaluated (by rw [hev]; simp)
  have hmb : mode ≠ .best := by
    rcases hmode with ⟨h, -⟩ | ⟨h, -⟩ <;> (subst h; decide)
  have htar : targetValue sentences v 0 mode = 0 := by
    rw [targetValue, if_neg hmb]
    push_cast
    ring
  have hcpos : 0 < contribution mode e := by
    rcases hmode with ⟨hm, hall⟩ | ⟨hm, hall⟩
    · subst hm
      have hre : contribution .value e = e.1 := rfl
      rw [hre]
      exact hall e.1 (mem_pyZip3 hmem).1
    · subst hm
      have hre : contribution .length e = (e.2.1.length : ℚ) := rfl
      rw [hre]
      exact_mod_cast List.length_pos.mpr (hall e.2.1 (mem_pyZip3 hmem).2)
  have hcond : ¬(targetValue sentences v 0 mode - 0
      ≥ 0 + contribution mode e - targetValue sentences v 0 mode) := by
    rw [htar]; push_neg; linarith
  have hmax_pos : 0 < maxValue sentences v mode := by
    rcases hmode with ⟨hm, hall⟩ | ⟨hm, hall⟩
    · subst hm
      have hvne : v ≠ [] := by
        intro hv0
        apply hne
        rw [hv0]
        rfl
      have hmv : maxValue sentences v .value = v.sum := by simp [maxValue]
      rw [hmv]
      exact List.sum_pos v hall hvne
    · subst hm
      rcases hs : sentences with _ | ⟨s0, srest⟩
      · exact absurd (by rw [hs]; simp [pyZip3]) hne
      have hmv : maxValue (s0 :: srest) v .length = (((s0 :: srest).flatten).length : ℚ) := by
        simp [maxValue]
      rw [hmv]
      have h0 : s0 ≠ [] := hall s0 (by rw [hs]; simp)
      have hlenpos : 0 < ((s0 :: srest).flatten).length := by
        rw [List.flatten_cons, List.length_append]
        have := List.length_pos.mpr h0
        omega
      exact_mod_cast hlenpos
  unfold generate_summary
  rw [if_neg hev_ne, if_neg (ne_of_gt hmax_pos), hev,
    selLoop_cons_stop _ _ _ _ _ _ hcond]
  simp

/-- Witness for C5 amended at a concrete input: one positive-valued
sentence, value mode, percentage 0. -/
theorem c5_percentage_zero_empty_witness :
    generate_summary [("a.").data] [1] 0 .value = .ok ([], 0) :=
  c5_percentage_zero_empty [("a.").data] [1] .value (by decide)
    (.inl ⟨rfl, by decide⟩)

/-- C4 counterexample: on the abbreviation test input the segmenter does
not return two sentences; it splits after the document-initial "Dr."
because the fix-up merge requires a preceding sentence. -/
theorem c4_counterexample :
    (split_to_sentences words_with_dot_tokens
      ("Dr. Smith went home. He left at 5 p.m. today.").data).length ≠ 2 := by
  decide

/-- C4 amended: on the abbreviation test input the segmenter keeps "p.m."
inside one sentence (the first pass merges the one-letter fragment), but it
emits the document-initial "Dr." as a sentence of its own, since the
abbreviation merge of the second pass only fires for a sentence with a
predecessor; the result is exactly these three sentences. -/
theorem c4_abbreviation_amended :
    split_to_sentences words_with_dot_tokens
        ("Dr. Smith went home. He left at 5 p.m. today.").data
      = [("Dr.").data, (" Smith went home.").data,
         (" He left at 5 p.m. today..").data] := by
  decide

/-- C6: in value mode, with non-negative sentence values and percentages
p1 <= p2 in [0, 100], whenever both runs succeed the selection for p2 has at
least as many sentences as the selection for p1 and realizes at least as
large a coverage percentage (the greedy loop with the larger target extends
the selection of the smaller one). -/
theorem c6_value_mode_monotone (sentences : List Sentence) (v : List ℚ) (p1 p2 : ℤ)
    (hnn : ∀ x ∈ v, 0 ≤ x) (hp0 : 0 ≤ p1) (hp12 : p1 ≤ p2) (hp2 : p2 ≤ 100)
    (sel1 sel2 : List Entry) (c1 c2 : ℚ)
    (h1 : generate_summary sentences v p1 .value = .ok (sel1, c1))
    (h2 : generate_summary sentences v p2 .value = .ok (sel2, c2)) :
    sel1.length ≤ sel2.length ∧ c1 ≤ c2 := by
  obtain ⟨hev, hmax, hsel1, hc1⟩ := generate_summary_ok_elim h1
  obtain ⟨-, -, hsel2, hc2⟩ := generate_summary_ok_elim h2
  have hmaxeq : maxValue sentences v .value = v.sum := by simp [maxValue]
  have hsum0 : v.sum ≠ 0 := by rw [hmaxeq] at hmax; exact hmax
  have hsumpos : 0 < v.sum := lt_of_le_of_ne (List.sum_nonneg hnn) (Ne.symm hsum0)
  have htar : targetValue sentences v p1 .value ≤ targetValue sentences v p2 .value := by
    unfold targetValue
    rw [if_neg (by decide), if_neg (by decide), hmaxeq]
    have hcast : (p1 : ℚ) ≤ (p2 : ℚ) := by exact_mod_cast hp12
    nlinarith [hsumpos.le]
  obtain ⟨ext, hext⟩ := selLoop_value_mono (averageValue sentences v) htar
    (evaluatedSentences sentences v) 0
  obtain ⟨rest2, hrest2⟩ := selLoop_fst_front .value (targetValue sentences v p2 .value)
    (averageValue sentences v) (evaluatedSentences sentences v) 0
  constructor
  · rw [hsel1, hsel2, List.length_mergeSort, List.length_mergeSort, hext]
    simp
  · rw [hc1, hc2, hmaxeq]
    have hS1 := selLoop_snd_eq .value (targetValue sentences v p1 .value)
      (averageValue sentences v) (evaluatedSentences sentences v) 0
    have hS2 := selLoop_snd_eq .value (targetValue sentences v p2 .value)
      (averageValue sentences v) (evaluatedSentences sentences v) 0
    rw [hS1, hS2, hext, List.map_append, List.sum_append]
    have hextnn : 0 ≤ (ext.map (contribution .value)).sum := by
      apply List.sum_nonneg
      intro x hx
      obtain ⟨x0, hx0, rfl⟩ := List.mem_map.mp hx
      apply contribution_nonneg hnn
      rw [hrest2, hext]
      simp [hx0]
    rw [div_le_div_iff hsumpos hsumpos]
    nlinarith [mul_nonneg hextnn hsumpos.le]

/-- Witness for C6 at a concrete input: a single sentence with value 1,
percentages 50 and 100 in value mode. -/
theorem c6_value_mode_monotone_witness :
    ([((1 : ℚ), ("ab.").data, 0)] : List Entry).length
        ≤ ([((1 : ℚ), ("ab.").data, 0)] : List Entry).length
      ∧ (100 : ℚ) ≤ 100 :=
  c6_value_mode_monotone [("ab.").data] [1] 50 100 (by decide) (by decide)
    (by decide) (by decide) _ _ _ _
    (generate_summary_single_select ("ab.").data 1 50 .value (by decide)
      (by simp [contribution]) (by simp [maxValue, contribution]) (by decide))
    (generate_summary_single_select ("ab.").data 1 100 .value (by decide)
      (by simp [contribution]) (by simp [maxValue, contribution]) (by decide))

/-- C10: with one non-negative value per sentence and a strictly positive
total contribution, the selector succeeds, its coverage percentage lies in
[0, 100], the selected entries carry pairwise distinct original positions
(no sentence occurrence is selected twice), and every selected entry is one
of the zipped input entries. -/
theorem c10_selector_invariants (sentences : List Sentence) (v : List ℚ) (p : ℤ)
    (mode : Mode) (hlen : v.length = sentences.length)
    (hnn : ∀ x ∈ v, 0 ≤ x) (hpos : 0 < maxValue sentences v mode) :
    ∃ sel c, generate_summary sentences v p mode = .ok (sel, c)
      ∧ 0 ≤ c ∧ c ≤ 100
      ∧ (sel.map (fun e => e.2.2)).Nodup
      ∧ ∀ e ∈ sel, e ∈ pyZip3 v sentences := by
  have hvne : v ≠ [] := by
    intro hv
    have hs0 : sentences = [] := by
      apply List.length_eq_zero.mp
      rw [← hlen, hv]
      rfl
    rw [hv, hs0] at hpos
    unfold maxValue at hpos
    by_cases hm : mode = .length
    · rw [if_pos hm] at hpos; simp at hpos
    · rw [if_neg hm] at hpos; simp at hpos
  have hzipne : pyZip3 v sentences ≠ [] := by
    intro h
    apply hvne
    have hl := congrArg List.length h
    unfold pyZip3 at hl
    rw [List.length_zip, List.length_zip, List.length_range] at hl
    simp only [List.length_nil] at hl
    apply List.length_eq_zero.mp
    omega
  have hev : evaluatedSentences sentences v ≠ [] := by
    intro h
    apply hzipne
    have hl := congrArg List.length h
    rw [evaluatedSentences, List.length_mergeSort] at hl
    exact List.length_eq_zero.mp (by simpa using hl)
  obtain ⟨rest, hrest⟩ := selLoop_fst_front mode (targetValue sentences v p mode)
    (averageValue sentences v) (evaluatedSentences sentences v) 0
  have hS := selLoop_snd_eq mode (targetValue sentences v p mode)
    (averageValue sentences v) (evaluatedSentences sentences v) 0
  have hmemev : ∀ e ∈ (selLoop mode (targetValue sentences v p mode)
      (averageValue sentences v) (evaluatedSentences sentences v) 0).1,
      e ∈ evaluatedSentences sentences v := by
    intro e he
    rw [hrest]
    simp [he]
  have hSnn : 0 ≤ (selLoop mode (targetValue sentences v p mode)
      (averageValue sentences v) (evaluatedSentences sentences v) 0).2 := by
    rw [hS]
    have : 0 ≤ ((selLoop mode (targetValue sentences v p mode)
        (averageValue sentences v) (evaluatedSentences sentences v) 0).1.map
          (contribution mode)).sum := by
      apply List.sum_nonneg
      intro x hx
      obtain ⟨x0, hx0, rfl⟩ := List.mem_map.mp hx
      exact contribution_nonneg hnn (hmemev x0 hx0)
    linarith
  have htot : ((selLoop mode (targetValue sentences v p mode)
        (averageValue sentences v) (evaluatedSentences sentences v) 0).1.map
          (contribution mode)).sum + (rest.map (contribution mode)).sum
      = maxValue sentences v mode := by
    rw [← evaluated_contribution_sum hlen mode]
    conv_rhs => rw [hrest]
    rw [List.map_append, List.sum_append]
  have hSle : (selLoop mode (targetValue sentences v p mode)
      (averageValue sentences v) (evaluatedSentences sentences v) 0).2
      ≤ maxValue sentences v mode := by
    rw [hS, ← htot]
    have hrnn : 0 ≤ (rest.map (contribution mode)).sum := by
      apply List.sum_nonneg
      intro x hx
      obtain ⟨x0, hx0, rfl⟩ := List.mem_map.mp hx
      apply contribution_nonneg hnn
      rw [hrest]
      simp [hx0]
    linarith
  unfold generate_summary
  rw [if_neg hev, if_neg (ne_of_gt hpos)]
  refine ⟨_, _, rfl, ?_, ?_, ?_, ?_⟩
  · positivity
  · rw [div_le_iff hpos]
    nlinarith
  · have hpermsel : List.Perm (((selLoop mode (targetValue sentences v p mode)
        (averageValue sentences v) (evaluatedSentences sentences v) 0).1.mergeSort
          idxLe).map (fun e => e.2.2))
        ((selLoop mode (targetValue sentences v p mode)
          (averageValue sentences v) (evaluatedSentences sentences v) 0).1.map
            (fun e => e.2.2)) :=
      (List.mergeSort_perm _ _).map _
    rw [hpermsel.nodup_iff]
    have hN : ((evaluatedSentences sentences v).map (fun e => e.2.2)).Nodup := by
      have hp2 : List.Perm ((evaluatedSentences sentences v).map (fun e => e.2.2))
          ((pyZip3 v sentences).map (fun e => e.2.2)) :=
        (List.mergeSort_perm _ _).map _
      rw [hp2.nodup_iff, pyZip3_map_idx hlen]
      exact List.nodup_range _
    rw [hrest, List.map_append] at hN
    exact hN.of_append_left
  · intro e he
    have he1 : e ∈ (selLoop mode (targetValue sentences v p mode)
        (averageValue sentences v) (evaluatedSentences sentences v) 0).1 :=
      List.mem_mergeSort.mp he
    exact mem_evaluated (hmemev e he1)

/-- Witness for C10 at a concrete input: one sentence of positive value in
value mode. -/
theorem c10_selector_invariants_witness :
    ∃ sel c, generate_summary [("ab.").data] [1] 70 .value = .ok (sel, c)
      ∧ 0 ≤ c ∧ c ≤ 100
      ∧ (sel.map (fun e => e.2.2)).Nodup
      ∧ ∀ e ∈ sel, e ∈ pyZip3 [1] [("ab.").data] :=
  c10_selector_invariants [("ab.").data] [1] 70 .value (by decide) (by decide)
    (by simp [maxValue])

end TLDR
